import Mathlib

/-!
# Subsurface: the dive-equipment tab and the filter/sort proxy

A shallow embedding of `desktop-widgets/tab-widgets/TabDiveEquipment.cpp` and of the
interface declared in `qt-models/filtermodels.h`.

The widget toolkit objects the tab drives (table view, header actions, message banner,
line edit, settings store, message box) are represented by the part of their state that
the tab reads or writes.  Everything the tab calls but does not define (the undo-command
layer, the dive selection, the core dive accessors, the user answering a message box) is a
field of `Env`; calls into those collaborators are recorded, in order, in `State.calls`.
-/

namespace Subsurface

/-! ## Toolkit values -/

/-- Value held by a settings entry (`QVariant`); `invalid` is what `QSettings::value`
returns for a key that is not stored. -/
inductive QVariant where
  | invalid
  | bool (b : Bool)
  | int (n : Int)
  | string (s : String)
deriving DecidableEq

/-- Model of `QVariant::isValid`. -/
def QVariant.isValid : QVariant → Bool
  | .invalid => false
  | _ => true

/-- Model of `QVariant::toBool`: a boolean is itself, a number is true when non-zero, a string is
true unless its lower-case content is empty, "0" or "false". -/
def QVariant.toBool : QVariant → Bool
  | .invalid => false
  | .bool b => b
  | .int n => n != 0
  | .string s =>
    let l := s.data.map Char.toLower
    !(l == [] || l == ['0'] || l == "false".data)

/-- One access to the persistent settings store, by full key. -/
inductive Access where
  | read (key : String)
  | write (key : String)
deriving DecidableEq

/-- The persistent settings store: the value stored under each full key, and the
accesses made so far. -/
structure SettingsStore where
  values : String → QVariant
  log : List Access

/-- A `QSettings` object: a handle on the store with a current group. -/
structure QSettings where
  store : SettingsStore
  group : String

/-- Model of `QSettings s;` -/
def QSettings.open (store : SettingsStore) : QSettings :=
  { store := store, group := "" }

/-- Model of `QSettings::beginGroup`. -/
def QSettings.beginGroup (s : QSettings) (g : String) : QSettings :=
  { s with group := g }

/-- Full key of `key` inside the current group. -/
def QSettings.fullKey (s : QSettings) (key : String) : String :=
  s.group ++ "/" ++ key

/-- Model of `QSettings::value`: the stored value (or an invalid variant), recording the read. -/
def QSettings.value (s : QSettings) (key : String) : QVariant × QSettings :=
  (s.store.values (s.fullKey key),
   { s with store := { s.store with log := s.store.log ++ [Access.read (s.fullKey key)] } })

/-- Model of `QSettings::setValue`. -/
def QSettings.setValue (s : QSettings) (key : String) (v : QVariant) : QSettings :=
  { s with store :=
      { values := fun k => if k = s.fullKey key then v else s.store.values k
        log := s.store.log ++ [Access.write (s.fullKey key)] } }

/-- Model of `QString("column%1_hidden").arg(i)`. -/
def columnHiddenKey (i : Nat) : String :=
  "column" ++ toString i ++ "_hidden"

/-- A header context-menu action (`QAction`). -/
structure QAction where
  text : String
  checkable : Bool
  data : Nat
  checked : Bool
deriving DecidableEq

/-- What the toolkit does to an action when it is triggered, before the `triggered`
signal reaches its slots: a checkable action flips its checked state. -/
def QAction.activate (a : QAction) : QAction :=
  if a.checkable then { a with checked := !a.checked } else a

/-- The cylinder table view (`ui.cylinders->view()`): per column the hidden flag and the
section width it has when shown (hiding and showing a column keep it), and the actions of
its horizontal header. -/
structure QTableView where
  columnHidden : Nat → Bool
  sectionSize : Nat → Int
  headerActions : List QAction

/-- Model of `QTableView::isColumnHidden`. -/
def QTableView.isColumnHidden (v : QTableView) (col : Nat) : Bool :=
  v.columnHidden col

/-- Model of `QTableView::setColumnHidden`. -/
def QTableView.setColumnHidden (v : QTableView) (col : Nat) (hide : Bool) : QTableView :=
  { v with columnHidden := fun c => if c = col then hide else v.columnHidden c }

/-- Model of `QTableView::showColumn`. -/
def QTableView.showColumn (v : QTableView) (col : Nat) : QTableView :=
  v.setColumnHidden col false

/-- Model of `QTableView::hideColumn`. -/
def QTableView.hideColumn (v : QTableView) (col : Nat) : QTableView :=
  v.setColumnHidden col true

/-- Model of `QTableView::columnWidth`. -/
def QTableView.columnWidth (v : QTableView) (col : Nat) : Int :=
  v.sectionSize col

/-- Model of `QTableView::setColumnWidth`. -/
def QTableView.setColumnWidth (v : QTableView) (col : Nat) (w : Int) : QTableView :=
  { v with sectionSize := fun c => if c = col then w else v.sectionSize c }

/-- Model of `horizontalHeader()->addAction`. -/
def QTableView.addHeaderAction (v : QTableView) (a : QAction) : QTableView :=
  { v with headerActions := v.headerActions ++ [a] }

/-- The multi-dive warning banner (`ui.multiDiveWarningMessage`). -/
structure KMessageWidget where
  visible : Bool
  text : String
  closeButtonVisible : Bool
deriving DecidableEq

/-- Buttons a message box can return. -/
inductive StandardButton where
  | NoButton
  | Ok
  | Cancel
  | Yes
  | No
deriving DecidableEq

/-- A clicked table cell (`QModelIndex`). -/
structure QModelIndex where
  valid : Bool
  row : Nat
  column : Nat
deriving DecidableEq

/-- Model of `QModelIndex::isValid`. -/
def QModelIndex.isValid (index : QModelIndex) : Bool :=
  index.valid

/-! ## Core declarations the tab uses -/

/-- Dive modes of a dive computer (`enum divemode_t`). -/
inductive divemode_t where
  | OC
  | CCR
  | PSCR
  | FREEDIVE
deriving DecidableEq

/-- The part of `struct divecomputer` the tab reads. -/
structure divecomputer where
  divemode : divemode_t
deriving DecidableEq

/-- The column enumeration `CylindersModel::Column` and the header texts of the cylinder
model.  The enumeration is declared in `qt-models/cylindermodel.h`; its enumerators are
taken as given indices. -/
structure CylindersModel where
  REMOVE : Nat
  TYPE : Nat
  DEPTH : Nat
  USE : Nat
  WORKINGPRESS_INT : Nat
  SIZE_INT : Nat
  SENSORS : Nat
  COLUMNS : Nat
  headerData : Nat → String

/-- The enumerators of a C++ enumeration are pairwise distinct and `COLUMNS`, the last
one, is above all the others. -/
def CylindersModel.WellFormed (m : CylindersModel) : Prop :=
  [m.REMOVE, m.TYPE, m.DEPTH, m.USE, m.WORKINGPRESS_INT, m.SIZE_INT, m.SENSORS].Nodup ∧
  ∀ c ∈ [m.REMOVE, m.TYPE, m.DEPTH, m.USE, m.WORKINGPRESS_INT, m.SIZE_INT, m.SENSORS],
    c < m.COLUMNS

instance (m : CylindersModel) : Decidable m.WellFormed := by
  unfold CylindersModel.WellFormed
  infer_instance

/-- The `REMOVE` column of `WeightModel`. -/
structure WeightModel where
  REMOVE : Nat

/-! ## The tab -/

/-- Model of `ignoreHiddenFlag`. -/
def ignoreHiddenFlag (m : CylindersModel) (i : Nat) : Bool :=
  i == m.REMOVE || i == m.TYPE || i == m.WORKINGPRESS_INT || i == m.SIZE_INT

/-- Model of `hiddenByDefault`. -/
def hiddenByDefault (m : CylindersModel) (i : Nat) : Bool :=
  if i = m.SENSORS then true else false

/-- The widgets of the tab (`ui`) that the code under study touches. -/
structure TabDiveEquipment where
  cylinders : QTableView
  multiDiveWarningMessage : KMessageWidget
  suit : String

/-- A call made by the tab into a collaborator, in the order made. -/
inductive Call (D : Type) where
  | cylindersModel_updateDive (currentDive : Option D) (currentDC : Int)
  | weightModel_updateDive (currentDive : Option D)
  | cylindersModel_clear
  | weightModel_clear
  | warning (answer : StandardButton)
  | addCylinder (currentDiveOnly : Bool)
  | addWeight (currentDiveOnly : Bool)
  | removeCylinder (row : Nat) (currentDiveOnly : Bool)
  | removeWeight (row : Nat) (currentDiveOnly : Bool)
  | editSuit (text : String) (currentDiveOnly : Bool)
  | cylinders_edit (index : QModelIndex)
  | weights_edit (index : QModelIndex)

/-- Whether a call is a command of the undo layer (`Command::...`). -/
def Call.isCommand {D : Type} : Call D → Bool
  | .addCylinder _ => true
  | .addWeight _ => true
  | .removeCylinder _ _ => true
  | .removeWeight _ _ => true
  | .editSuit _ _ => true
  | _ => false

/-- The collaborators of the tab.  `D` is the type of dives, `W` the shared dive data
that commands mutate.  Each command returns the number of dives it affected. -/
structure Env (D W : Type) where
  cylindersModel : CylindersModel
  weightModel : WeightModel
  getDiveSelection : W → List D
  current_dive : W → Option D
  cylinder_with_sensor_sample : D → Nat → Bool
  suit : D → Option String
  get_dive_dc : D → Int → divecomputer
  addCylinder : Bool → W → Int × W
  addWeight : Bool → W → Int × W
  removeCylinder : Nat → Bool → W → Int × W
  removeWeight : Nat → Bool → W → Int × W
  editSuit : String → Bool → W → Int × W
  warning : Nat → StandardButton

/-- The tab together with the shared dive data, the calls made so far and the number of
confirmation prompts raised so far (`Env.warning n` is the answer to prompt number `n`). -/
structure State (D W : Type) where
  tab : TabDiveEquipment
  world : W
  calls : List (Call D)
  prompts : Nat

/-- Model of `TabDiveEquipment::divesEdited`.  The banner text is the source string of
`tr("Warning: edited %1 dives")` with `%1` replaced by the decimal rendering of `i`. -/
def TabDiveEquipment.divesEdited (i : Int) (t : TabDiveEquipment) : TabDiveEquipment :=
  if i ≤ 1 then t
  else
    { t with multiDiveWarningMessage :=
        { visible := true
          text := "Warning: edited " ++ toString i ++ " dives"
          closeButtonVisible := false } }

/-- Model of `TabDiveEquipment::closeWarning`. -/
def TabDiveEquipment.closeWarning (t : TabDiveEquipment) : TabDiveEquipment :=
  { t with multiDiveWarningMessage := { t.multiDiveWarningMessage with visible := false } }

/-- Model of `TabDiveEquipment::toggleTriggeredColumn`, for the triggering action `action`
(`sender()`), in the state it has when the slot runs. -/
def TabDiveEquipment.toggleTriggeredColumn (action : QAction) (t : TabDiveEquipment) :
    TabDiveEquipment :=
  let col := action.data
  let view := t.cylinders
  if action.checked then
    let view := view.showColumn col
    if view.columnWidth col ≤ 15 then
      { t with cylinders := view.setColumnWidth col 80 }
    else
      { t with cylinders := view }
  else
    { t with cylinders := view.hideColumn col }

/-- The header action the constructor creates for column `i`; `checked` is the hidden
flag chosen for the column. -/
def columnAction (m : CylindersModel) (i : Nat) (checked : Bool) : QAction :=
  { text := m.headerData i, checkable := true, data := i, checked := !checked }

/-- One iteration of the column loop of the constructor. -/
def constructColumn (m : CylindersModel) (acc : QTableView × QSettings) (i : Nat) :
    QTableView × QSettings :=
  if ignoreHiddenFlag m i then acc
  else
    let (setting, s) := acc.2.value (columnHiddenKey i)
    let checked := if setting.isValid then setting.toBool else hiddenByDefault m i
    let action := columnAction m i checked
    let view := acc.1.setColumnHidden i checked
    (view.addHeaderAction action, s)

/-- The constructor `TabDiveEquipment::TabDiveEquipment`.  `ui` is the state of the
widgets after `setupUi`, `store` the persistent settings; the result is the constructed
tab and the settings store after the reads. -/
def TabDiveEquipment.construct (m : CylindersModel) (ui : TabDiveEquipment)
    (store : SettingsStore) : TabDiveEquipment × SettingsStore :=
  let view := ui.cylinders.setColumnHidden m.DEPTH true
  let view := view.setColumnHidden m.WORKINGPRESS_INT true
  let view := view.setColumnHidden m.SIZE_INT true
  let banner := { ui.multiDiveWarningMessage with visible := false }
  let s := (QSettings.open store).beginGroup "cylinders_dialog"
  let r := (List.range m.COLUMNS).foldl (constructColumn m) (view, s)
  ({ ui with cylinders := r.1, multiDiveWarningMessage := banner }, r.2.store)

/-- One iteration of the column loop of the destructor. -/
def destructColumn (m : CylindersModel) (t : TabDiveEquipment) (s : QSettings) (i : Nat) :
    QSettings :=
  if ignoreHiddenFlag m i then s
  else s.setValue (columnHiddenKey i) (QVariant.bool (t.cylinders.isColumnHidden i))

/-- The destructor `TabDiveEquipment::~TabDiveEquipment`: the settings store it leaves. -/
def TabDiveEquipment.destruct (m : CylindersModel) (t : TabDiveEquipment)
    (store : SettingsStore) : SettingsStore :=
  let s := (QSettings.open store).beginGroup "cylinders_dialog"
  ((List.range m.COLUMNS).foldl (destructColumn m t) s).store

/-- The user triggers the `k`-th action of the header context menu: the toolkit flips the
action and then runs the connected slot `toggleTriggeredColumn` with it as sender. -/
def TabDiveEquipment.triggerHeaderAction (k : Nat) (t : TabDiveEquipment) :
    TabDiveEquipment :=
  match t.cylinders.headerActions[k]? with
  | none => t
  | some a =>
    let a1 := a.activate
    let t1 := { t with cylinders :=
      { t.cylinders with headerActions := t.cylinders.headerActions.set k a1 } }
    t1.toggleTriggeredColumn a1

/-- Append a call to the record of calls. -/
def State.call {D W : Type} (st : State D W) (c : Call D) : State D W :=
  { st with calls := st.calls ++ [c] }

/-- Model of `TabDiveEquipment::divesEdited` on the full state. -/
def divesEdited {D W : Type} (i : Int) (st : State D W) : State D W :=
  { st with tab := st.tab.divesEdited i }

/-- Model of `TabDiveEquipment::updateData`. -/
def updateData {D W : Type} (env : Env D W) (_selection : List D) (currentDive : Option D)
    (currentDC : Int) (st : State D W) : State D W :=
  let st := st.call (Call.cylindersModel_updateDive currentDive currentDC)
  let st := st.call (Call.weightModel_updateDive currentDive)
  let is_ccr :=
    match currentDive with
    | none => false
    | some d => (env.get_dive_dc d currentDC).divemode == divemode_t.CCR
  let view :=
    if is_ccr then st.tab.cylinders.showColumn env.cylindersModel.USE
    else st.tab.cylinders.hideColumn env.cylindersModel.USE
  let suit :=
    match currentDive with
    | none => ""
    | some d =>
      match env.suit d with
      | some text => text
      | none => ""
  { st with tab := { st.tab with cylinders := view, suit := suit } }

/-- Model of `TabDiveEquipment::clear`. -/
def clear {D W : Type} (st : State D W) : State D W :=
  let st := st.call Call.cylindersModel_clear
  let st := st.call Call.weightModel_clear
  { st with tab := { st.tab with suit := "" } }

/-- Model of `TabDiveEquipment::addCylinder_clicked`. -/
def addCylinder_clicked {D W : Type} (env : Env D W) (st : State D W) : State D W :=
  let r := env.addCylinder false st.world
  divesEdited r.1 { st.call (Call.addCylinder false) with world := r.2 }

/-- Model of `TabDiveEquipment::addWeight_clicked`. -/
def addWeight_clicked {D W : Type} (env : Env D W) (st : State D W) : State D W :=
  let r := env.addWeight false st.world
  divesEdited r.1 { st.call (Call.addWeight false) with world := r.2 }

/-- The loop over the dive selection in `editCylinderWidget`: for each selected dive
whose cylinder at `row` has sensor samples the confirmation prompt is raised; the result
is `false` when a prompt was answered with anything but Yes (the early `return`). -/
def confirmRemoval {D W : Type} (env : Env D W) (row : Nat) :
    List D → State D W → Bool × State D W
  | [], st => (true, st)
  | d :: ds, st =>
    if env.cylinder_with_sensor_sample d row then
      let answer := env.warning st.prompts
      let st1 := { st.call (Call.warning answer) with prompts := st.prompts + 1 }
      if answer ≠ StandardButton.Yes then (false, st1)
      else confirmRemoval env row ds st1
    else confirmRemoval env row ds st

/-- Model of `TabDiveEquipment::editCylinderWidget`. -/
def editCylinderWidget {D W : Type} (env : Env D W) (index : QModelIndex)
    (st : State D W) : State D W :=
  if !index.isValid then st
  else if index.column = env.cylindersModel.REMOVE then
    match confirmRemoval env index.row (env.getDiveSelection st.world) st with
    | (false, st1) => st1
    | (true, st1) =>
      let r := env.removeCylinder index.row false st1.world
      divesEdited r.1 { st1.call (Call.removeCylinder index.row false) with world := r.2 }
  else st.call (Call.cylinders_edit index)

/-- Model of `TabDiveEquipment::editWeightWidget`. -/
def editWeightWidget {D W : Type} (env : Env D W) (index : QModelIndex)
    (st : State D W) : State D W :=
  if !index.isValid then st
  else if index.column = env.weightModel.REMOVE then
    let r := env.removeWeight index.row false st.world
    divesEdited r.1 { st.call (Call.removeWeight index.row false) with world := r.2 }
  else st.call (Call.weights_edit index)

/-- Model of `TabDiveEquipment::on_suit_editingFinished`. -/
def on_suit_editingFinished {D W : Type} (env : Env D W) (st : State D W) : State D W :=
  match env.current_dive st.world with
  | none => st
  | some _ =>
    let r := env.editSuit st.tab.suit false st.world
    divesEdited r.1 { st.call (Call.editSuit st.tab.suit false) with world := r.2 }

/-- The calls made between an earlier state and a later one. -/
def newCalls {D W : Type} (before after : State D W) : List (Call D) :=
  after.calls.drop before.calls.length

/-! ## The filter/sort proxy -/

/-- A top-level row of the trip-tree model: a dive outside any trip, or a trip header
with its child dive rows. -/
inductive TripTreeItem (D : Type) where
  | dive (d : D)
  | trip (dives : List D)

/-- Acceptance of the dive row `source_row` below the trip header at row `trip`: the
dive passes the active filter. -/
def diveRowAccepted {D : Type} (model : List (TripTreeItem D)) (filter : D → Bool)
    (source_row trip : Nat) : Bool :=
  match model[trip]? with
  | some (TripTreeItem.trip dives) =>
    match dives[source_row]? with
    | some d => filter d
    | none => false
  | _ => false

/-- Modelled from the spec: `MultiFilterSortModel::filterAcceptsRow` is only declared in
`qt-models/filtermodels.h`; its body and the underlying `DiveTripModelBase` are not among
the sources.  Following the spec, the function returns whether the row, a dive or a trip
header, passes the active filter, and a trip header is accepted if at least one of its
child dives is accepted.  `source_parent` is `none` for a top-level row and `some t` for
a row below the trip header at top-level row `t`. -/
def MultiFilterSortModel.filterAcceptsRow {D : Type} (model : List (TripTreeItem D))
    (filter : D → Bool) (source_row : Nat) (source_parent : Option Nat) : Bool :=
  match source_parent with
  | some trip => diveRowAccepted model filter source_row trip
  | none =>
    match model[source_row]? with
    | some (TripTreeItem.dive d) => filter d
    | some (TripTreeItem.trip dives) =>
      (List.range dives.length).any fun r => diveRowAccepted model filter r source_row
    | none => false

/-- Number of child rows below a top-level row (`rowCount`). -/
def rowCount {D : Type} (model : List (TripTreeItem D)) (row : Nat) : Nat :=
  match model[row]? with
  | some (TripTreeItem.trip dives) => dives.length
  | _ => 0

/-- Whether a top-level row is a trip header. -/
def isTripHeader {D : Type} (model : List (TripTreeItem D)) (row : Nat) : Bool :=
  match model[row]? with
  | some (TripTreeItem.trip _) => true
  | _ => false

/-- Modelled from the spec: `MultiFilterSortModel::lessThan` is only declared in
`qt-models/filtermodels.h`; its body is not among the sources.  Following the spec, it is
the ordering over rows for the active sort key: `sortKey` gives the value of the active
sort key at a row, in a totally ordered type, and a row is less than another when its key
is. -/
def MultiFilterSortModel.lessThan {R K : Type} [LinearOrder K] (sortKey : R → K)
    (left right : R) : Bool :=
  decide (sortKey left < sortKey right)

/-! ## Concrete instances -/

/-- A column enumeration with fifteen columns. -/
def sampleColumns : CylindersModel :=
  { REMOVE := 0, TYPE := 1, DEPTH := 8, USE := 11, WORKINGPRESS_INT := 12, SIZE_INT := 13,
    SENSORS := 14, COLUMNS := 15, headerData := fun i => "header " ++ toString i }

/-- Widgets as `setupUi` leaves them: every column shown and 100 wide, no header action,
an empty banner and an empty suit field. -/
def freshUi : TabDiveEquipment :=
  { cylinders := { columnHidden := fun _ => false, sectionSize := fun _ => 100,
                   headerActions := [] }
    multiDiveWarningMessage := { visible := true, text := "", closeButtonVisible := true }
    suit := "" }

/-- A settings store with nothing stored. -/
def emptyStore : SettingsStore :=
  { values := fun _ => QVariant.invalid, log := [] }

/-- Collaborators over dives named by numbers; the shared dive data is the list of
selected dives.  Dive 2 has sensor samples on cylinder 0, dive 7 dives in CCR mode and
wears a suit, every command affects the whole selection, and the user answers every
prompt with `answer`. -/
def sampleEnv (answer : StandardButton) : Env Nat (List Nat) :=
  { cylindersModel := sampleColumns
    weightModel := { REMOVE := 0 }
    getDiveSelection := fun w => w
    current_dive := fun w => w.head?
    cylinder_with_sensor_sample := fun d row => d == 2 && row == 0
    suit := fun d => if d = 7 then some "drysuit" else none
    get_dive_dc := fun d _ =>
      if d = 7 then { divemode := divemode_t.CCR } else { divemode := divemode_t.OC }
    addCylinder := fun _ w => (w.length, w)
    addWeight := fun _ w => (w.length, w)
    removeCylinder := fun _ _ w => (w.length, w)
    removeWeight := fun _ _ w => (w.length, w)
    editSuit := fun _ _ w => (w.length, w)
    warning := fun _ => answer }

/-- A state with the dives 1, 2 and 3 selected and nothing called yet. -/
def sampleState : State Nat (List Nat) :=
  { tab := freshUi, world := [1, 2, 3], calls := [], prompts := 0 }

/-- A trip tree: dive 1 outside any trip, then a trip with the dives 2 and 3. -/
def sampleTree : List (TripTreeItem Nat) :=
  [TripTreeItem.dive 1, TripTreeItem.trip [2, 3]]

/-! ## Auxiliary definitions for the statements -/

/-- The columns the two column loops act on: those below `COLUMNS` that
`ignoreHiddenFlag` does not exclude, in loop order. -/
def toggleableColumns (m : CylindersModel) : List Nat :=
  (List.range m.COLUMNS).filter fun i => !ignoreHiddenFlag m i

/-- The hidden flag the constructor chooses for column `i` from the settings `s`: the
stored preference when there is one, the default otherwise. -/
def storedHidden (m : CylindersModel) (s : QSettings) (i : Nat) : Bool :=
  if (s.store.values (s.fullKey (columnHiddenKey i))).isValid then
    (s.store.values (s.fullKey (columnHiddenKey i))).toBool
  else hiddenByDefault m i

/-- The full settings key of the hidden flag of cylinder column `i`. -/
def cylinderColumnKey (i : Nat) : String :=
  "cylinders_dialog/column" ++ toString i ++ "_hidden"

/-- An interaction with a constructed tab: the user triggers the `k`-th header action, or
the application calls `updateData`. -/
inductive Step (D : Type) where
  | trigger (k : Nat)
  | updateData (selection : List D) (currentDive : Option D) (currentDC : Int)

/-- Whether a step is a call of `updateData`. -/
def Step.isUpdateData {D : Type} : Step D → Bool
  | .trigger _ => false
  | .updateData _ _ _ => true

/-- The effect of one step. -/
def Step.apply {D W : Type} (env : Env D W) (st : State D W) : Step D → State D W
  | .trigger k => { st with tab := st.tab.triggerHeaderAction k }
  | .updateData selection currentDive currentDC =>
    Subsurface.updateData env selection currentDive currentDC st

/-- The effect of a sequence of steps, first to last. -/
def run {D W : Type} (env : Env D W) (st : State D W) (steps : List (Step D)) : State D W :=
  steps.foldl (Step.apply env) st

/-- The state right after construction of the tab from the widgets `ui` and the
settings `store`, over the dive data `world`. -/
def constructed {D W : Type} (env : Env D W) (ui : TabDiveEquipment) (store : SettingsStore)
    (world : W) : State D W :=
  { tab := (TabDiveEquipment.construct env.cylindersModel ui store).1
    world := world, calls := [], prompts := 0 }

/-- Whether the header action of USE can be relied on after `steps`, given whether it
could before (`b`): a call of `updateData` unsettles it, a trigger of the header action of
USE settles it, any other trigger leaves it as it was. -/
def useSettled {D : Type} (m : CylindersModel) (b : Bool) : List (Step D) → Bool
  | [] => b
  | Step.trigger k :: steps =>
    useSettled m (b || (toggleableColumns m)[k]? == some m.USE) steps
  | Step.updateData _ _ _ :: steps => useSettled m false steps

/-- Every header action of column `c` is checked exactly when column `c` is visible. -/
def HeaderInSync (t : TabDiveEquipment) (c : Nat) : Prop :=
  ∀ a ∈ t.cylinders.headerActions, a.data = c →
    (a.checked = true ↔ t.cylinders.isColumnHidden c = false)

instance (t : TabDiveEquipment) (c : Nat) : Decidable (HeaderInSync t c) := by
  unfold HeaderInSync
  infer_instance

/-- Invariant of the tab with respect to the columns satisfying `P`: the header actions
are those of the toggleable columns in order, all are checkable, and the action of a
column satisfying `P` is checked exactly when the column is not hidden. -/
def TabInvariant (m : CylindersModel) (P : Nat → Prop) (t : TabDiveEquipment) : Prop :=
  t.cylinders.headerActions.map QAction.data = toggleableColumns m ∧
  (∀ a ∈ t.cylinders.headerActions, a.checkable = true) ∧
  (∀ a ∈ t.cylinders.headerActions, P a.data →
    a.checked = !t.cylinders.isColumnHidden a.data)

/-- Value of a string of decimal digits. -/
def decimalValue (cs : List Char) : Nat :=
  cs.foldl (fun acc c => 10 * acc + (c.toNat - 48)) 0

/-! ## The banner -/

/-- C3: for every affected-dive count `N`, `divesEdited N` shows the banner with the
text "Warning: edited N dives" when `N > 1` (touching nothing else), and when `N ≤ 1`
leaves the whole state, banner visibility and text included, as it was; a count of 3,
as returned by the add-cylinder command, gives the visible text
"Warning: edited 3 dives". -/
theorem divesEdited_banner {D W : Type} (N : Int) (st : State D W) :
    (1 < N →
      (divesEdited N st).tab.multiDiveWarningMessage =
          { visible := true, text := "Warning: edited " ++ toString N ++ " dives",
            closeButtonVisible := false } ∧
        (divesEdited N st).tab.cylinders = st.tab.cylinders ∧
        (divesEdited N st).tab.suit = st.tab.suit ∧
        (divesEdited N st).world = st.world ∧
        (divesEdited N st).calls = st.calls) ∧
    (N ≤ 1 → divesEdited N st = st) ∧
    ((divesEdited 3 st).tab.multiDiveWarningMessage.visible = true ∧
      (divesEdited 3 st).tab.multiDiveWarningMessage.text = "Warning: edited 3 dives") ∧
    (∀ env : Env D W, (env.addCylinder false st.world).1 = 3 →
      (addCylinder_clicked env st).tab.multiDiveWarningMessage.visible = true ∧
      (addCylinder_clicked env st).tab.multiDiveWarningMessage.text
        = "Warning: edited 3 dives") := by
  refine ⟨?_, ?_, ?_, ?_⟩
  · intro h
    have h1 : ¬ N ≤ 1 := not_le.mpr h
    simp [divesEdited, TabDiveEquipment.divesEdited, h1]
  · intro h
    simp [divesEdited, TabDiveEquipment.divesEdited, h]
  · simp [divesEdited, TabDiveEquipment.divesEdited]
    decide
  · intro env h
    simp [addCylinder_clicked, divesEdited, TabDiveEquipment.divesEdited, h]
    decide

/-- Witness for C3: three selected dives, add cylinder. -/
theorem divesEdited_banner_witness :
    (addCylinder_clicked (sampleEnv StandardButton.Yes) sampleState).tab.multiDiveWarningMessage.visible
        = true ∧
      (addCylinder_clicked (sampleEnv StandardButton.Yes) sampleState).tab.multiDiveWarningMessage.text
        = "Warning: edited 3 dives" :=
  (divesEdited_banner 3 sampleState).2.2.2 (sampleEnv StandardButton.Yes) (by decide)

/-! ## Column toggles -/

/-- C6: in `toggleTriggeredColumn` for an action on column `c` with prior width `w`: if
the action is checked the column becomes visible and its width becomes 80 when `w ≤ 15`
and stays `w` otherwise; if it is unchecked the column becomes hidden and keeps its
width; no other column changes visibility or width, and nothing else of the tab
changes. -/
theorem toggleTriggeredColumn_spec (action : QAction) (t : TabDiveEquipment) :
    (action.checked = true →
      (t.toggleTriggeredColumn action).cylinders.isColumnHidden action.data = false ∧
      (t.cylinders.columnWidth action.data ≤ 15 →
        (t.toggleTriggeredColumn action).cylinders.columnWidth action.data = 80) ∧
      (15 < t.cylinders.columnWidth action.data →
        (t.toggleTriggeredColumn action).cylinders.columnWidth action.data
          = t.cylinders.columnWidth action.data)) ∧
    (action.checked = false →
      (t.toggleTriggeredColumn action).cylinders.isColumnHidden action.data = true ∧
      (t.toggleTriggeredColumn action).cylinders.columnWidth action.data
        = t.cylinders.columnWidth action.data) ∧
    (∀ c, c ≠ action.data →
      (t.toggleTriggeredColumn action).cylinders.isColumnHidden c
        = t.cylinders.isColumnHidden c ∧
      (t.toggleTriggeredColumn action).cylinders.columnWidth c
        = t.cylinders.columnWidth c) ∧
    (t.toggleTriggeredColumn action).cylinders.headerActions = t.cylinders.headerActions ∧
    (t.toggleTriggeredColumn action).multiDiveWarningMessage = t.multiDiveWarningMessage ∧
    (t.toggleTriggeredColumn action).suit = t.suit := by
  cases hc : action.checked <;>
    by_cases hw : t.cylinders.sectionSize action.data ≤ 15 <;>
    simp [TabDiveEquipment.toggleTriggeredColumn, QTableView.showColumn,
      QTableView.hideColumn, QTableView.setColumnHidden, QTableView.setColumnWidth,
      QTableView.columnWidth, QTableView.isColumnHidden, hc, hw] <;>
    omega

/-- Witness for C6: revealing column 5 of width 3 makes it visible and 80 wide. -/
theorem toggleTriggeredColumn_spec_witness :
    (({ freshUi with cylinders := { freshUi.cylinders with sectionSize := fun _ => 3 } } :
        TabDiveEquipment).toggleTriggeredColumn
      { text := "", checkable := true, data := 5, checked := true }).cylinders.isColumnHidden 5
        = false ∧
    (({ freshUi with cylinders := { freshUi.cylinders with sectionSize := fun _ => 3 } } :
        TabDiveEquipment).toggleTriggeredColumn
      { text := "", checkable := true, data := 5, checked := true }).cylinders.columnWidth 5
        = 80 :=
  have h := (toggleTriggeredColumn_spec
    { text := "", checkable := true, data := 5, checked := true }
    { freshUi with cylinders := { freshUi.cylinders with sectionSize := fun _ => 3 } }).1 rfl
  ⟨h.1, h.2.1 (by decide)⟩

/-! ## Refreshing the display -/

/-- C7: after `updateData` the gas-use column is visible exactly when a dive was given
and the dive mode of its selected dive computer is CCR; the suit field shows the suit of
the dive when a dive was given and has one, and is empty otherwise; the only calls made
are the two model refreshes, so no undo command is issued, and the shared dive data is
untouched. -/
theorem updateData_spec {D W : Type} (env : Env D W) (selection : List D)
    (currentDive : Option D) (currentDC : Int) (st : State D W) :
    ((updateData env selection currentDive currentDC st).tab.cylinders.isColumnHidden
        env.cylindersModel.USE = false ↔
      ∃ d, currentDive = some d ∧ (env.get_dive_dc d currentDC).divemode = divemode_t.CCR) ∧
    (∀ d text, currentDive = some d → env.suit d = some text →
      (updateData env selection currentDive currentDC st).tab.suit = text) ∧
    ((currentDive = none ∨ ∃ d, currentDive = some d ∧ env.suit d = none) →
      (updateData env selection currentDive currentDC st).tab.suit = "") ∧
    newCalls st (updateData env selection currentDive currentDC st)
      = [Call.cylindersModel_updateDive currentDive currentDC,
         Call.weightModel_updateDive currentDive] ∧
    (∀ c ∈ newCalls st (updateData env selection currentDive currentDC st),
      c.isCommand = false) ∧
    (updateData env selection currentDive currentDC st).world = st.world ∧
    (updateData env selection currentDive currentDC st).tab.multiDiveWarningMessage
      = st.tab.multiDiveWarningMessage := by
  have hcalls : newCalls st (updateData env selection currentDive currentDC st)
      = [Call.cylindersModel_updateDive currentDive currentDC,
         Call.weightModel_updateDive currentDive] := by
    simp [newCalls, updateData, State.call]
  refine ⟨?_, ?_, ?_, hcalls, ?_, ?_, ?_⟩
  · cases currentDive with
    | none =>
      simp [updateData, State.call, QTableView.hideColumn, QTableView.setColumnHidden,
        QTableView.isColumnHidden]
    | some d =>
      by_cases h : (env.get_dive_dc d currentDC).divemode = divemode_t.CCR <;>
        simp [updateData, State.call, QTableView.hideColumn, QTableView.showColumn,
          QTableView.setColumnHidden, QTableView.isColumnHidden, h]
  · intro d text hd hs
    subst hd
    simp [updateData, hs]
  · rintro (h | ⟨d, hd, hs⟩)
    · subst h
      simp [updateData]
    · subst hd
      simp [updateData, hs]
  · intro c hc
    rw [hcalls] at hc
    simp at hc
    rcases hc with h | h <;> subst h <;> rfl
  · simp [updateData, State.call]
  · simp [updateData, State.call]

/-- Witness for C7: dive 7 dives in CCR mode and wears a suit. -/
theorem updateData_spec_witness :
    (updateData (sampleEnv StandardButton.Yes) [7] (some 7) 0 sampleState).tab.suit
      = "drysuit" :=
  (updateData_spec (sampleEnv StandardButton.Yes) [7] (some 7) 0 sampleState).2.1
    7 "drysuit" rfl (by decide)

/-! ## Removing a cylinder -/

/-- The confirmation loop only appends prompts to the record of calls: the state it
returns is the given one with the answers of the prompts raised appended; it returns
`true` only if all of them are Yes, and `false` only if one of them is not. -/
theorem confirmRemoval_effect {D W : Type} (env : Env D W) (row : Nat) (ds : List D) :
    ∀ st : State D W, ∃ answers : List StandardButton,
      (confirmRemoval env row ds st).2 =
        { st with calls := st.calls ++ answers.map Call.warning,
                  prompts := st.prompts + answers.length } ∧
      ((confirmRemoval env row ds st).1 = true → ∀ b ∈ answers, b = StandardButton.Yes) ∧
      ((confirmRemoval env row ds st).1 = false → ∃ b ∈ answers, b ≠ StandardButton.Yes) := by
  induction ds with
  | nil => intro st; exact ⟨[], by simp [confirmRemoval]⟩
  | cons d ds ih =>
    intro st
    by_cases hs : env.cylinder_with_sensor_sample d row = true
    · by_cases ha : env.warning st.prompts = StandardButton.Yes
      · obtain ⟨answers, h1, h2, h3⟩ :=
          ih { st.call (Call.warning (env.warning st.prompts)) with prompts := st.prompts + 1 }
        refine ⟨StandardButton.Yes :: answers, ?_, ?_, ?_⟩
        · simp only [confirmRemoval, hs, ha, if_true, ne_eq, not_true_eq_false, if_false]
          rw [ha] at h1
          rw [h1]
          simp [State.call, Nat.add_assoc, Nat.add_comm 1]
        · intro h b hb
          simp only [confirmRemoval, hs, ha, if_true, ne_eq, not_true_eq_false, if_false] at h
          rw [ha] at h2
          rcases List.mem_cons.mp hb with hb | hb
          · exact hb
          · exact h2 h b hb
        · intro h
          simp only [confirmRemoval, hs, ha, if_true, ne_eq, not_true_eq_false, if_false] at h
          rw [ha] at h3
          obtain ⟨b, hb, hne⟩ := h3 h
          exact ⟨b, List.mem_cons_of_mem _ hb, hne⟩
      · refine ⟨[env.warning st.prompts], ?_, ?_, ?_⟩
        · simp [confirmRemoval, hs, ha, State.call]
        · intro h
          simp [confirmRemoval, hs, ha] at h
        · intro _
          exact ⟨_, List.mem_singleton.mpr rfl, ha⟩
    · obtain ⟨answers, h1, h2, h3⟩ := ih st
      refine ⟨answers, ?_, ?_, ?_⟩
      · simpa [confirmRemoval, hs] using h1
      · simpa [confirmRemoval, hs] using h2
      · simpa [confirmRemoval, hs] using h3

/-- The confirmation loop lets the removal proceed exactly when the user answers Yes to
one prompt per selected dive whose cylinder at `row` has sensor samples. -/
theorem confirmRemoval_proceeds_iff {D W : Type} (env : Env D W) (row : Nat) (ds : List D) :
    ∀ st : State D W,
      (confirmRemoval env row ds st).1 = true ↔
        ∀ j, j < (ds.filter fun d => env.cylinder_with_sensor_sample d row).length →
          env.warning (st.prompts + j) = StandardButton.Yes := by
  induction ds with
  | nil => intro st; simp [confirmRemoval]
  | cons d ds ih =>
    intro st
    by_cases hs : env.cylinder_with_sensor_sample d row = true
    · by_cases ha : env.warning st.prompts = StandardButton.Yes
      · simp only [confirmRemoval, hs, ha, if_true, ne_eq, not_true_eq_false, if_false,
          List.filter_cons_of_pos, List.length_cons]
        rw [ih]
        constructor
        · intro h j hj
          cases j with
          | zero => simpa using ha
          | succ j =>
            have := h j (by omega)
            simpa [State.call, Nat.add_assoc, Nat.add_comm 1] using this
        · intro h j hj
          have := h (j + 1) (by omega)
          simpa [State.call, Nat.add_assoc, Nat.add_comm 1] using this
      · simp only [confirmRemoval, hs, ha, if_true, ne_eq, not_false_eq_true,
          List.filter_cons_of_pos, List.length_cons]
        constructor
        · intro h; simp at h
        · intro h
          exact absurd (by simpa using h 0 (by omega)) ha
    · simp only [confirmRemoval, hs, if_false, Bool.false_eq_true]
      rw [ih]
      simp [List.filter_cons, hs]

/-- A click on the REMOVE column of a valid index: the early return when the
confirmation loop stops, the remove command followed by `divesEdited` otherwise. -/
theorem editCylinderWidget_remove {D W : Type} (env : Env D W) (index : QModelIndex)
    (st : State D W) (hvalid : index.isValid = true)
    (hcol : index.column = env.cylindersModel.REMOVE) :
    editCylinderWidget env index st =
      if (confirmRemoval env index.row (env.getDiveSelection st.world) st).1 then
        divesEdited
          (env.removeCylinder index.row false
            (confirmRemoval env index.row (env.getDiveSelection st.world) st).2.world).1
          { (confirmRemoval env index.row (env.getDiveSelection st.world) st).2.call
              (Call.removeCylinder index.row false) with
            world := (env.removeCylinder index.row false
              (confirmRemoval env index.row (env.getDiveSelection st.world) st).2.world).2 }
      else (confirmRemoval env index.row (env.getDiveSelection st.world) st).2 := by
  unfold editCylinderWidget
  simp only [hvalid, hcol, Bool.not_true, Bool.false_eq_true, if_false, if_true]
  rcases confirmRemoval env index.row (env.getDiveSelection st.world) st with ⟨b, st1⟩
  cases b <;> simp

/-- C1: for a valid click on the REMOVE column at row `r`: if the user gives an answer
other than Yes to one of the prompts due (one per selected dive whose cylinder at `r` has
sensor samples), or equivalently if a prompt raised by the call was answered with
anything but Yes, then the tab (banner included) and the shared dive data are unchanged
and no command was called; and if a command was called, every prompt raised by the call
was answered Yes. -/
theorem editCylinderWidget_confirmation {D W : Type} (env : Env D W) (index : QModelIndex)
    (st : State D W) (hvalid : index.isValid = true)
    (hcol : index.column = env.cylindersModel.REMOVE) :
    ((∃ j, j < ((env.getDiveSelection st.world).filter
            fun d => env.cylinder_with_sensor_sample d index.row).length ∧
          env.warning (st.prompts + j) ≠ StandardButton.Yes) →
      (editCylinderWidget env index st).tab = st.tab ∧
      (editCylinderWidget env index st).world = st.world ∧
      (∀ c ∈ newCalls st (editCylinderWidget env index st), c.isCommand = false) ∧
      ∃ b, b ≠ StandardButton.Yes ∧
        Call.warning b ∈ newCalls st (editCylinderWidget env index st)) ∧
    ((∃ b, b ≠ StandardButton.Yes ∧
          Call.warning b ∈ newCalls st (editCylinderWidget env index st)) →
      (editCylinderWidget env index st).tab = st.tab ∧
      (editCylinderWidget env index st).world = st.world ∧
      (∀ c ∈ newCalls st (editCylinderWidget env index st), c.isCommand = false)) ∧
    ((∃ c ∈ newCalls st (editCylinderWidget env index st), c.isCommand = true) →
      ∀ b, Call.warning b ∈ newCalls st (editCylinderWidget env index st) →
        b = StandardButton.Yes) := by
  obtain ⟨answers, heff, hyes, hno⟩ :=
    confirmRemoval_effect env index.row (env.getDiveSelection st.world) st
  have hiff := confirmRemoval_proceeds_iff env index.row (env.getDiveSelection st.world) st
  rw [editCylinderWidget_remove env index st hvalid hcol]
  cases hres : (confirmRemoval env index.row (env.getDiveSelection st.world) st).1 with
  | false =>
    have hstop : (∀ c ∈ newCalls st
        (confirmRemoval env index.row (env.getDiveSelection st.world) st).2,
          c.isCommand = false) := by
      intro c hc
      rw [heff] at hc
      simp only [newCalls, List.drop_left, List.mem_map] at hc
      obtain ⟨b, _, rfl⟩ := hc
      rfl
    have htab : (confirmRemoval env index.row (env.getDiveSelection st.world) st).2.tab
        = st.tab := by rw [heff]
    have hworld : (confirmRemoval env index.row (env.getDiveSelection st.world) st).2.world
        = st.world := by rw [heff]
    simp only [Bool.false_eq_true, if_false]
    refine ⟨fun _ => ⟨htab, hworld, hstop, ?_⟩, fun _ => ⟨htab, hworld, hstop⟩, ?_⟩
    · obtain ⟨b, hb, hne⟩ := hno hres
      refine ⟨b, hne, ?_⟩
      rw [heff]
      simp only [newCalls, List.drop_left, List.mem_map]
      exact ⟨b, hb, rfl⟩
    · rintro ⟨c, hc, hcmd⟩
      rw [hstop c hc] at hcmd
      exact absurd hcmd (by decide)
  | true =>
    have hall := hyes hres
    have hwarn : ∀ b, Call.warning b ∈ newCalls st
        (divesEdited
          (env.removeCylinder index.row false
            (confirmRemoval env index.row (env.getDiveSelection st.world) st).2.world).1
          { (confirmRemoval env index.row (env.getDiveSelection st.world) st).2.call
              (Call.removeCylinder index.row false) with
            world := (env.removeCylinder index.row false
              (confirmRemoval env index.row (env.getDiveSelection st.world) st).2.world).2 }) →
        b = StandardButton.Yes := by
      intro b hb
      rw [heff] at hb
      simp only [newCalls, divesEdited, State.call, List.append_assoc, List.drop_left,
        List.mem_append, List.mem_map, List.mem_singleton] at hb
      rcases hb with ⟨a, ha, hab⟩ | hb
      · exact Call.warning.inj hab ▸ hall a ha
      · cases hb
    simp only [if_true]
    refine ⟨?_, ?_, fun _ => hwarn⟩
    · rintro ⟨j, hj, hne⟩
      exact absurd (hiff.mp hres j hj) hne
    · rintro ⟨b, hne, hb⟩
      exact absurd (hwarn b hb) hne

/-- Witness for C1: dives 1, 2, 3 selected, dive 2 has sensor samples on cylinder 0, the
user answers No: the tab and the selection are as before. -/
theorem editCylinderWidget_confirmation_witness :
    (editCylinderWidget (sampleEnv StandardButton.No)
        { valid := true, row := 0, column := 0 } sampleState).tab = sampleState.tab ∧
    (editCylinderWidget (sampleEnv StandardButton.No)
        { valid := true, row := 0, column := 0 } sampleState).world = sampleState.world :=
  have h := (editCylinderWidget_confirmation (sampleEnv StandardButton.No)
    { valid := true, row := 0, column := 0 } sampleState rfl rfl).1
      ⟨0, by decide, by decide⟩
  ⟨h.1, h.2.1⟩

/-- C2: for a valid click on the REMOVE column at row `r` when no selected dive has a
cylinder at `r` with sensor samples: no prompt is raised, the remove-cylinder command for
`r` is the one call made, and the state is the one `divesEdited` produces from the count
the command returned. -/
theorem editCylinderWidget_no_sensor {D W : Type} (env : Env D W) (index : QModelIndex)
    (st : State D W) (hvalid : index.isValid = true)
    (hcol : index.column = env.cylindersModel.REMOVE)
    (hnone : ∀ d ∈ env.getDiveSelection st.world,
      env.cylinder_with_sensor_sample d index.row = false) :
    editCylinderWidget env index st =
        divesEdited (env.removeCylinder index.row false st.world).1
          { st.call (Call.removeCylinder index.row false) with
            world := (env.removeCylinder index.row false st.world).2 } ∧
    newCalls st (editCylinderWidget env index st) = [Call.removeCylinder index.row false] ∧
    (editCylinderWidget env index st).prompts = st.prompts ∧
    (editCylinderWidget env index st).world
      = (env.removeCylinder index.row false st.world).2 ∧
    (editCylinderWidget env index st).tab
      = st.tab.divesEdited (env.removeCylinder index.row false st.world).1 := by
  have hloop : ∀ ds : List D, (∀ d ∈ ds, env.cylinder_with_sensor_sample d index.row = false) →
      confirmRemoval env index.row ds st = (true, st) := by
    intro ds
    induction ds with
    | nil => intro _; rfl
    | cons d ds ih =>
      intro h
      have hd := h d (List.mem_cons_self _ _)
      simp only [confirmRemoval, hd, Bool.false_eq_true, if_false]
      exact ih fun e he => h e (List.mem_cons_of_mem _ he)
  have heq := editCylinderWidget_remove env index st hvalid hcol
  rw [hloop _ hnone] at heq
  simp only [if_true] at heq
  rw [heq]
  simp [newCalls, divesEdited, State.call]

/-- Witness for C2: dives 1 and 3 selected, neither has sensor samples on cylinder 0. -/
theorem editCylinderWidget_no_sensor_witness :
    newCalls { sampleState with world := [1, 3] }
        (editCylinderWidget (sampleEnv StandardButton.No)
          { valid := true, row := 0, column := 0 } { sampleState with world := [1, 3] })
      = [Call.removeCylinder 0 false] :=
  (editCylinderWidget_no_sensor (sampleEnv StandardButton.No)
    { valid := true, row := 0, column := 0 } { sampleState with world := [1, 3] } rfl rfl
    (by decide)).2.1

/-! ## Settings keys -/

/-- The digit characters decode to their digit. -/
theorem digitChar_value (k : Nat) (hk : k < 10) : (Nat.digitChar k).toNat - 48 = k := by
  interval_cases k <;> rfl

/-- Decoding the digits written by `Nat.toDigitsCore` in front of `ds`. -/
theorem toDigitsCore_value (fuel : Nat) :
    ∀ (n : Nat) (ds : List Char), n < fuel →
      (Nat.toDigitsCore 10 fuel n ds).foldl (fun acc c => 10 * acc + (c.toNat - 48)) 0
        = ds.foldl (fun acc c => 10 * acc + (c.toNat - 48)) n := by
  induction fuel with
  | zero => intro n ds h; omega
  | succ fuel ih =>
    intro n ds h
    have hd := digitChar_value (n % 10) (Nat.mod_lt _ (by decide))
    by_cases h0 : n / 10 = 0
    · have hn : n % 10 = n := Nat.mod_eq_of_lt (by omega)
      rw [hn] at hd
      simp only [Nat.toDigitsCore, h0, if_true, List.foldl_cons, hn, hd]
      simp
    · simp only [Nat.toDigitsCore, h0, if_false]
      rw [ih (n / 10) _ (by omega)]
      simp only [List.foldl_cons, hd]
      congr 1
      omega

/-- Decoding the decimal rendering of a number gives the number back. -/
theorem decimalValue_toDigits (n : Nat) : decimalValue (Nat.toDigits 10 n) = n := by
  unfold decimalValue Nat.toDigits
  rw [toDigitsCore_value (n + 1) n [] (by omega)]
  rfl

/-- Distinct numbers have distinct decimal renderings. -/
theorem toString_nat_injective {a b : Nat} (h : toString a = toString b) : a = b := by
  have h1 : Nat.toDigits 10 a = Nat.toDigits 10 b := by
    have : (Nat.toDigits 10 a).asString = (Nat.toDigits 10 b).asString := h
    exact congrArg String.data this
  rw [← decimalValue_toDigits a, ← decimalValue_toDigits b, h1]

/-- Distinct columns have distinct settings keys, in any group. -/
theorem columnHiddenKey_injective {a b : Nat} (g : String)
    (h : g ++ "/" ++ columnHiddenKey a = g ++ "/" ++ columnHiddenKey b) : a = b := by
  apply toString_nat_injective
  have h1 := congrArg String.data h
  simp only [columnHiddenKey, String.data_append, List.append_assoc] at h1
  have h2 := List.append_cancel_left (List.append_cancel_left (List.append_cancel_left h1))
  exact String.ext (List.append_cancel_right h2)


/-! ## Construction and destruction -/

/-- The column loop of the constructor run over the first `n` columns. -/
theorem constructColumn_fold (m : CylindersModel) (v : QTableView) (s : QSettings)
    (n : Nat) :
    (List.range n).foldl (constructColumn m) (v, s) =
      ({ columnHidden := fun c =>
           if c < n ∧ ignoreHiddenFlag m c = false then storedHidden m s c
           else v.columnHidden c
         sectionSize := v.sectionSize
         headerActions := v.headerActions ++
           ((List.range n).filter (fun i => !ignoreHiddenFlag m i)).map
             (fun i => columnAction m i (storedHidden m s i)) },
       { s with
         store :=
           { s.store with
             log := s.store.log ++
               ((List.range n).filter (fun i => !ignoreHiddenFlag m i)).map
                 (fun i => Access.read (s.fullKey (columnHiddenKey i))) } }) := by
  induction n with
  | zero => simp
  | succ n ih =>
    rw [List.range_succ, List.foldl_append, ih]
    by_cases hig : ignoreHiddenFlag m n = true
    · simp only [List.foldl_cons, List.foldl_nil, constructColumn, hig, if_true,
        List.filter_append, List.filter_cons, List.filter_nil, Bool.not_true,
        Bool.false_eq_true, if_false, List.append_nil]
      congr 2
      funext c
      by_cases hc : c = n
      · subst hc; simp [hig]
      · have : (c < n + 1) = (c < n) := by
          apply propext; omega
        simp [this]
    · have hig2 : ignoreHiddenFlag m n = false := by simpa using hig
      simp only [List.foldl_cons, List.foldl_nil, constructColumn, hig2, Bool.false_eq_true,
        if_false, List.filter_append, List.filter_cons, List.filter_nil, Bool.not_false,
        if_true, List.map_append, List.map_cons, List.map_nil, QSettings.value,
        QTableView.setColumnHidden, QTableView.addHeaderAction, QSettings.fullKey,
        storedHidden, List.append_assoc]
      congr 2
      funext c
      by_cases hc : c = n
      · subst hc; simp [hig2]
      · have : (c < n + 1) = (c < n) := by
          apply propext; omega
        simp [this, hc]

/-- The column loop of the destructor run over the first `n` columns: the group is
kept, one write per toggleable column is recorded, each toggleable column's key holds
the hidden flag of the column, and every other key keeps its value. -/
theorem destructColumn_fold (m : CylindersModel) (t : TabDiveEquipment) (s : QSettings)
    (n : Nat) :
    ((List.range n).foldl (destructColumn m t) s).group = s.group ∧
    ((List.range n).foldl (destructColumn m t) s).store.log =
      s.store.log ++ ((List.range n).filter (fun i => !ignoreHiddenFlag m i)).map
        (fun i => Access.write (s.fullKey (columnHiddenKey i))) ∧
    (∀ i, i < n → ignoreHiddenFlag m i = false →
      ((List.range n).foldl (destructColumn m t) s).store.values
          (s.fullKey (columnHiddenKey i)) = QVariant.bool (t.cylinders.isColumnHidden i)) ∧
    (∀ k, (∀ i, i < n → ignoreHiddenFlag m i = false → k ≠ s.fullKey (columnHiddenKey i)) →
      ((List.range n).foldl (destructColumn m t) s).store.values k = s.store.values k) := by
  induction n with
  | zero => simp
  | succ n ih =>
    obtain ⟨hg, hl, hv, ho⟩ := ih
    rw [List.range_succ, List.foldl_append]
    by_cases hig : ignoreHiddenFlag m n = true
    · simp only [List.foldl_cons, List.foldl_nil, destructColumn, hig, if_true,
        List.filter_append, List.filter_cons, List.filter_nil, Bool.not_true,
        Bool.false_eq_true, if_false, List.append_nil]
      refine ⟨hg, hl, ?_, ?_⟩
      · intro i hi hti
        have hne : i ≠ n := fun h => by rw [h, hig] at hti; exact absurd hti (by decide)
        exact hv i (by omega) hti
      · intro k hk
        exact ho k fun i hi hti => hk i (by omega) hti
    · have hig2 : ignoreHiddenFlag m n = false := by simpa using hig
      have hfull : ∀ key, ((List.range n).foldl (destructColumn m t) s).fullKey key
          = s.fullKey key := by
        intro key; simp [QSettings.fullKey, hg]
      simp only [List.foldl_cons, List.foldl_nil, destructColumn, hig2, Bool.false_eq_true,
        if_false, List.filter_append, List.filter_cons, List.filter_nil, Bool.not_false,
        if_true, List.map_append, List.map_cons, List.map_nil, QSettings.setValue, hfull]
      refine ⟨hg, ?_, ?_, ?_⟩
      · rw [hl, List.append_assoc]
      · intro i hi hti
        by_cases hin : i = n
        · subst hin; simp
        · have hkey : s.fullKey (columnHiddenKey i) ≠ s.fullKey (columnHiddenKey n) :=
            fun h => hin (columnHiddenKey_injective s.group h)
          simp only [hkey, if_false]
          exact hv i (by omega) hti
      · intro k hk
        have hkn : k ≠ s.fullKey (columnHiddenKey n) := hk n (by omega) hig2
        simp only [hkn, if_false]
        exact ho k fun i hi hti => hk i (by omega) hti

/-- The full key of a column's preference in the settings object the constructor and
the destructor use. -/
theorem fullKey_cylinders_dialog (store : SettingsStore) (i : Nat) :
    ((QSettings.open store).beginGroup "cylinders_dialog").fullKey (columnHiddenKey i)
      = cylinderColumnKey i := by
  apply String.ext
  simp [QSettings.fullKey, QSettings.beginGroup, QSettings.open, columnHiddenKey,
    cylinderColumnKey, String.data_append]

/-- Distinct columns have distinct full keys. -/
theorem cylinderColumnKey_injective {a b : Nat}
    (h : cylinderColumnKey a = cylinderColumnKey b) : a = b := by
  rw [← fullKey_cylinders_dialog emptyStore a, ← fullKey_cylinders_dialog emptyStore b] at h
  exact columnHiddenKey_injective _ h

/-- The constructed tab and the settings store the constructor leaves, in closed form. -/
theorem construct_eq (m : CylindersModel) (ui : TabDiveEquipment) (store : SettingsStore) :
    (∀ c, (TabDiveEquipment.construct m ui store).1.cylinders.isColumnHidden c =
      if c < m.COLUMNS ∧ ignoreHiddenFlag m c = false then
        storedHidden m ((QSettings.open store).beginGroup "cylinders_dialog") c
      else if c = m.SIZE_INT ∨ c = m.WORKINGPRESS_INT ∨ c = m.DEPTH then true
      else ui.cylinders.isColumnHidden c) ∧
    (TabDiveEquipment.construct m ui store).1.cylinders.sectionSize
      = ui.cylinders.sectionSize ∧
    (TabDiveEquipment.construct m ui store).1.cylinders.headerActions =
      ui.cylinders.headerActions ++ (toggleableColumns m).map (fun i => columnAction m i
        (storedHidden m ((QSettings.open store).beginGroup "cylinders_dialog") i)) ∧
    (TabDiveEquipment.construct m ui store).2.values = store.values ∧
    (TabDiveEquipment.construct m ui store).2.log =
      store.log ++ (toggleableColumns m).map (fun i => Access.read (cylinderColumnKey i)) := by
  simp only [TabDiveEquipment.construct, constructColumn_fold, toggleableColumns,
    fullKey_cylinders_dialog]
  refine ⟨?_, rfl, rfl, rfl, rfl⟩
  intro c
  simp only [QTableView.isColumnHidden, QTableView.setColumnHidden]
  by_cases h1 : c < m.COLUMNS ∧ ignoreHiddenFlag m c = false
  · simp [h1]
  · simp only [h1, if_false]
    by_cases h2 : c = m.SIZE_INT
    · simp [h2]
    · by_cases h3 : c = m.WORKINGPRESS_INT
      · simp [h2, h3]
      · simp [h2, h3]

/-- The hidden flag chosen by the constructor, in terms of the stored value. -/
theorem storedHidden_cylinders_dialog (m : CylindersModel) (store : SettingsStore) (i : Nat) :
    storedHidden m ((QSettings.open store).beginGroup "cylinders_dialog") i =
      if (store.values (cylinderColumnKey i)).isValid then
        (store.values (cylinderColumnKey i)).toBool
      else hiddenByDefault m i := by
  unfold storedHidden
  rw [fullKey_cylinders_dialog]
  rfl

/-- The columns the loops act on are the columns below `COLUMNS` that are not
structural. -/
theorem mem_toggleableColumns (m : CylindersModel) (i : Nat) :
    i ∈ toggleableColumns m ↔ i < m.COLUMNS ∧ ignoreHiddenFlag m i = false := by
  simp [toggleableColumns]

/-- The settings store the destructor leaves, in closed form. -/
theorem destruct_eq (m : CylindersModel) (t : TabDiveEquipment) (store : SettingsStore) :
    (t.destruct m store).log =
      store.log ++ (toggleableColumns m).map (fun i => Access.write (cylinderColumnKey i)) ∧
    (∀ i, i < m.COLUMNS → ignoreHiddenFlag m i = false →
      (t.destruct m store).values (cylinderColumnKey i)
        = QVariant.bool (t.cylinders.isColumnHidden i)) ∧
    (∀ k, (∀ i, i < m.COLUMNS → ignoreHiddenFlag m i = false → k ≠ cylinderColumnKey i) →
      (t.destruct m store).values k = store.values k) := by
  obtain ⟨_, hl, hv, ho⟩ := destructColumn_fold m t
    ((QSettings.open store).beginGroup "cylinders_dialog") m.COLUMNS
  simp only [fullKey_cylinders_dialog] at hl hv ho
  exact ⟨hl, hv, ho⟩

/-- C5: after construction every toggleable column `i` (below `COLUMNS`, not excluded
by `ignoreHiddenFlag`) is hidden exactly when the stored preference "column<i>_hidden" is
true if the preference exists, and exactly when `hiddenByDefault i` holds otherwise, which
is the case for the SENSORS column only; with an empty store every toggleable column
except SENSORS is shown, DEPTH included; the header gets one action per toggleable column,
the constructor reads and the destructor writes the keys of the toggleable columns only,
so a structural column gets no action and its key is neither read nor written. -/
theorem construct_column_visibility (m : CylindersModel) (ui : TabDiveEquipment)
    (store : SettingsStore) :
    (∀ i, i < m.COLUMNS → ignoreHiddenFlag m i = false →
      ((store.values (cylinderColumnKey i)).isValid = true →
        ((TabDiveEquipment.construct m ui store).1.cylinders.isColumnHidden i = true ↔
          (store.values (cylinderColumnKey i)).toBool = true)) ∧
      ((store.values (cylinderColumnKey i)).isValid = false →
        ((TabDiveEquipment.construct m ui store).1.cylinders.isColumnHidden i = true ↔
          hiddenByDefault m i = true))) ∧
    (∀ i, hiddenByDefault m i = true ↔ i = m.SENSORS) ∧
    ((∀ k, store.values k = QVariant.invalid) →
      ∀ i, i < m.COLUMNS → ignoreHiddenFlag m i = false →
        ((TabDiveEquipment.construct m ui store).1.cylinders.isColumnHidden i = true ↔
          i = m.SENSORS)) ∧
    (m.WellFormed → (∀ k, store.values k = QVariant.invalid) →
      (TabDiveEquipment.construct m ui store).1.cylinders.isColumnHidden m.DEPTH = false) ∧
    (TabDiveEquipment.construct m ui store).1.cylinders.headerActions =
      ui.cylinders.headerActions ++ (toggleableColumns m).map (fun i => columnAction m i
        ((TabDiveEquipment.construct m ui store).1.cylinders.isColumnHidden i)) ∧
    (TabDiveEquipment.construct m ui store).2.values = store.values ∧
    (TabDiveEquipment.construct m ui store).2.log =
      store.log ++ (toggleableColumns m).map (fun i => Access.read (cylinderColumnKey i)) ∧
    (∀ t : TabDiveEquipment, (t.destruct m store).log =
      store.log ++ (toggleableColumns m).map (fun i => Access.write (cylinderColumnKey i))) ∧
    (∀ j, ignoreHiddenFlag m j = true →
      j ∉ toggleableColumns m ∧
      (∀ a ∈ (TabDiveEquipment.construct m ui store).1.cylinders.headerActions.drop
          ui.cylinders.headerActions.length, a.data ≠ j) ∧
      (∀ acc ∈ (TabDiveEquipment.construct m ui store).2.log.drop store.log.length,
        acc ≠ Access.read (cylinderColumnKey j) ∧ acc ≠ Access.write (cylinderColumnKey j)) ∧
      (∀ t : TabDiveEquipment,
        (∀ acc ∈ (t.destruct m store).log.drop store.log.length,
          acc ≠ Access.read (cylinderColumnKey j) ∧
          acc ≠ Access.write (cylinderColumnKey j)) ∧
        (t.destruct m store).values (cylinderColumnKey j)
          = store.values (cylinderColumnKey j))) := by
  obtain ⟨hh, _, ha, hv, hl⟩ := construct_eq m ui store
  have hdef : ∀ i, hiddenByDefault m i = true ↔ i = m.SENSORS := by
    intro i
    by_cases h : i = m.SENSORS <;> simp [hiddenByDefault, h]
  have hhid : ∀ i, i < m.COLUMNS → ignoreHiddenFlag m i = false →
      (TabDiveEquipment.construct m ui store).1.cylinders.isColumnHidden i =
        if (store.values (cylinderColumnKey i)).isValid then
          (store.values (cylinderColumnKey i)).toBool
        else hiddenByDefault m i := by
    intro i hi hti
    rw [hh i, if_pos ⟨hi, hti⟩, storedHidden_cylinders_dialog]
  have hempty : (∀ k, store.values k = QVariant.invalid) →
      ∀ i, i < m.COLUMNS → ignoreHiddenFlag m i = false →
        ((TabDiveEquipment.construct m ui store).1.cylinders.isColumnHidden i = true ↔
          i = m.SENSORS) := by
    intro he i hi hti
    rw [hhid i hi hti, he]
    simpa [QVariant.isValid] using hdef i
  refine ⟨?_, hdef, hempty, ?_, ?_, hv, hl, fun t => (destruct_eq m t store).1, ?_⟩
  · intro i hi hti
    rw [hhid i hi hti]
    constructor
    · intro hval; simp [hval]
    · intro hval; simp [hval]
  · intro hwf he
    have hD : m.DEPTH < m.COLUMNS := hwf.2 _ (by simp)
    have hnd := hwf.1
    simp only [List.nodup_cons, List.mem_cons, List.mem_singleton, not_or, List.not_mem_nil,
      not_false_eq_true, List.nodup_nil, and_true] at hnd
    have hD2 : ignoreHiddenFlag m m.DEPTH = false := by
      simp only [ignoreHiddenFlag, Bool.or_eq_false_iff, beq_eq_false_iff_ne, ne_eq]
      refine ⟨⟨⟨?_, ?_⟩, ?_⟩, ?_⟩ <;> intro h <;> simp_all
    have hne : m.DEPTH ≠ m.SENSORS := by
      intro h; simp_all
    have := (hempty he m.DEPTH hD hD2).not.mpr hne
    simpa using this
  · rw [ha]
    congr 1
    apply List.map_congr_left
    intro i hi
    obtain ⟨hi1, hi2⟩ := (mem_toggleableColumns m i).mp hi
    rw [hh i, if_pos ⟨hi1, hi2⟩]
  · intro j hj
    have hnot : j ∉ toggleableColumns m := by
      intro h
      have := ((mem_toggleableColumns m j).mp h).2
      rw [hj] at this
      exact absurd this (by decide)
    have hkeys : ∀ i ∈ toggleableColumns m, cylinderColumnKey i ≠ cylinderColumnKey j := by
      intro i hi h
      exact hnot (cylinderColumnKey_injective h ▸ hi)
    refine ⟨hnot, ?_, ?_, ?_⟩
    · intro a hmem
      rw [ha, List.drop_left] at hmem
      obtain ⟨i, hi, rfl⟩ := List.mem_map.mp hmem
      intro h
      exact hnot (show j ∈ toggleableColumns m from h ▸ hi)
    · intro acc hmem
      rw [hl, List.drop_left] at hmem
      obtain ⟨i, hi, rfl⟩ := List.mem_map.mp hmem
      refine ⟨fun h => hkeys i hi (Access.read.inj h), fun h => ?_⟩
      cases h
    · intro t
      refine ⟨?_, ?_⟩
      · intro acc hmem
        rw [(destruct_eq m t store).1, List.drop_left] at hmem
        obtain ⟨i, hi, rfl⟩ := List.mem_map.mp hmem
        refine ⟨fun h => ?_, fun h => hkeys i hi (Access.write.inj h)⟩
        cases h
      · apply (destruct_eq m t store).2.2
        intro i hi hti h
        exact hkeys i ((mem_toggleableColumns m i).mpr ⟨hi, hti⟩) h.symm

/-- Witness for C5: with nothing stored, the DEPTH column of the sample enumeration is
shown after construction. -/
theorem construct_column_visibility_witness :
    (TabDiveEquipment.construct sampleColumns freshUi emptyStore).1.cylinders.isColumnHidden
      sampleColumns.DEPTH = false :=
  (construct_column_visibility sampleColumns freshUi emptyStore).2.2.2.1
    (by decide) (fun _ => rfl)

/-- The slot `toggleTriggeredColumn` sets the hidden flag of the action's column to the
negation of the action's checked state and touches neither another column's flag nor
the header actions. -/
theorem toggleTriggeredColumn_hidden (action : QAction) (t : TabDiveEquipment) :
    (∀ c, (t.toggleTriggeredColumn action).cylinders.isColumnHidden c =
      if c = action.data then !action.checked else t.cylinders.isColumnHidden c) ∧
    (t.toggleTriggeredColumn action).cylinders.headerActions = t.cylinders.headerActions := by
  cases hc : action.checked <;>
    by_cases hw : t.cylinders.sectionSize action.data ≤ 15 <;>
    simp [TabDiveEquipment.toggleTriggeredColumn, QTableView.showColumn,
      QTableView.hideColumn, QTableView.setColumnHidden, QTableView.setColumnWidth,
      QTableView.columnWidth, QTableView.isColumnHidden, hc, hw]

/-- C4: for every toggleable column `i` (below `COLUMNS`, not excluded by
`ignoreHiddenFlag`), the destructor stores the column's hidden flag under
"column<i>_hidden" and a tab constructed from the store the destructor left has column
`i` hidden exactly as it was at destruction; in particular, after a toggle of column `c`
followed by destruction and construction, `c` has the hidden state the toggle produced. -/
theorem visibility_roundtrip (m : CylindersModel) (t ui : TabDiveEquipment)
    (store : SettingsStore) :
    (∀ i, i < m.COLUMNS → ignoreHiddenFlag m i = false →
      (t.destruct m store).values (cylinderColumnKey i)
        = QVariant.bool (t.cylinders.isColumnHidden i) ∧
      (TabDiveEquipment.construct m ui (t.destruct m store)).1.cylinders.isColumnHidden i
        = t.cylinders.isColumnHidden i) ∧
    (∀ action : QAction, action.data < m.COLUMNS → ignoreHiddenFlag m action.data = false →
      (t.toggleTriggeredColumn action).cylinders.isColumnHidden action.data
        = !action.checked ∧
      (TabDiveEquipment.construct m ui
          ((t.toggleTriggeredColumn action).destruct m store)).1.cylinders.isColumnHidden
        action.data = !action.checked) := by
  have hround : ∀ (u : TabDiveEquipment) (i : Nat), i < m.COLUMNS →
      ignoreHiddenFlag m i = false →
      (u.destruct m store).values (cylinderColumnKey i)
        = QVariant.bool (u.cylinders.isColumnHidden i) ∧
      (TabDiveEquipment.construct m ui (u.destruct m store)).1.cylinders.isColumnHidden i
        = u.cylinders.isColumnHidden i := by
    intro u i hi hti
    have hw := (destruct_eq m u store).2.1 i hi hti
    refine ⟨hw, ?_⟩
    rw [(construct_eq m ui (u.destruct m store)).1 i, if_pos ⟨hi, hti⟩,
      storedHidden_cylinders_dialog, hw]
    simp [QVariant.isValid, QVariant.toBool]
  refine ⟨hround t, ?_⟩
  intro action hi hti
  have htoggle : (t.toggleTriggeredColumn action).cylinders.isColumnHidden action.data
      = !action.checked := by
    rw [(toggleTriggeredColumn_hidden action t).1 action.data, if_pos rfl]
  exact ⟨htoggle, by rw [(hround _ action.data hi hti).2, htoggle]⟩

/-- Witness for C4: hiding column 5 of the sample enumeration survives destruction and
construction. -/
theorem visibility_roundtrip_witness :
    (TabDiveEquipment.construct sampleColumns freshUi
      ((freshUi.toggleTriggeredColumn
        { text := "", checkable := true, data := 5, checked := false }).destruct
          sampleColumns emptyStore)).1.cylinders.isColumnHidden 5 = true :=
  ((visibility_roundtrip sampleColumns freshUi freshUi emptyStore).2
    { text := "", checkable := true, data := 5, checked := false }
    (by decide) (by decide)).2

/-! ## Header actions and column visibility -/

/-- The toggleable columns are listed without repetition. -/
theorem toggleableColumns_nodup (m : CylindersModel) : (toggleableColumns m).Nodup :=
  (List.nodup_range m.COLUMNS).filter _

/-- The invariant for a set of columns gives the invariant for any smaller set. -/
theorem tabInvariant_mono (m : CylindersModel) (P Q : Nat → Prop) (t : TabDiveEquipment)
    (hPQ : ∀ x, P x → Q x) (h : TabInvariant m Q t) : TabInvariant m P t :=
  ⟨h.1, h.2.1, fun a ha hP => h.2.2 a ha (hPQ _ hP)⟩

/-- The invariant holds right after construction from widgets without header actions. -/
theorem tabInvariant_construct (m : CylindersModel) (P : Nat → Prop) (ui : TabDiveEquipment)
    (store : SettingsStore) (hui : ui.cylinders.headerActions = []) :
    TabInvariant m P (TabDiveEquipment.construct m ui store).1 := by
  obtain ⟨hh, _, ha, _, _⟩ := construct_eq m ui store
  rw [hui, List.nil_append] at ha
  refine ⟨?_, ?_, ?_⟩
  · rw [ha, List.map_map]
    have : (QAction.data ∘ fun i => columnAction m i
        (storedHidden m ((QSettings.open store).beginGroup "cylinders_dialog") i)) = id := by
      funext i; rfl
    rw [this, List.map_id]
  · intro a hmem
    rw [ha] at hmem
    obtain ⟨i, _, rfl⟩ := List.mem_map.mp hmem
    rfl
  · intro a hmem _
    rw [ha] at hmem
    obtain ⟨i, hi, rfl⟩ := List.mem_map.mp hmem
    obtain ⟨hi1, hi2⟩ := (mem_toggleableColumns m i).mp hi
    show (!storedHidden m _ i) = !(TabDiveEquipment.construct m ui store).1.cylinders.isColumnHidden i
    rw [hh i, if_pos ⟨hi1, hi2⟩]

/-- Triggering the `k`-th header action keeps the invariant and establishes it for the
column of that action. -/
theorem tabInvariant_trigger (m : CylindersModel) (P Q : Nat → Prop) (t : TabDiveEquipment)
    (k : Nat) (hPQ : ∀ x, P x → Q x ∨ (toggleableColumns m)[k]? = some x)
    (h : TabInvariant m Q t) : TabInvariant m P (t.triggerHeaderAction k) := by
  obtain ⟨hdata, hcheckable, hsync⟩ := h
  have hkth : (toggleableColumns m)[k]? = t.cylinders.headerActions[k]?.map QAction.data := by
    rw [← hdata, List.getElem?_map]
  unfold TabDiveEquipment.triggerHeaderAction
  cases hk : t.cylinders.headerActions[k]? with
  | none =>
    rw [hk] at hkth
    refine tabInvariant_mono m P Q t (fun x hx => ?_) ⟨hdata, hcheckable, hsync⟩
    rcases hPQ x hx with hq | hq
    · exact hq
    · rw [hkth] at hq
      cases hq
  | some a =>
    rw [hk] at hkth
    have hamem : a ∈ t.cylinders.headerActions := List.mem_iff_getElem?.mpr ⟨k, hk⟩
    have hact : a.activate = { a with checked := !a.checked } := by
      simp [QAction.activate, hcheckable a hamem]
    have hadata : a.activate.data = a.data := by rw [hact]
    have hklt : k < t.cylinders.headerActions.length := (List.getElem?_eq_some.mp hk).1
    obtain ⟨hhid, hacts⟩ := toggleTriggeredColumn_hidden a.activate
      { t with cylinders :=
        { t.cylinders with headerActions := t.cylinders.headerActions.set k a.activate } }
    simp only at hhid hacts ⊢
    have hget : ∀ j b, (t.cylinders.headerActions.set k a.activate)[j]? = some b →
        (j = k ∧ b = a.activate) ∨ (j ≠ k ∧ t.cylinders.headerActions[j]? = some b) := by
      intro j b hb
      rw [List.getElem?_set] at hb
      by_cases hjk : k = j
      · left
        rw [if_pos hjk, if_pos hklt] at hb
        exact ⟨hjk.symm, (Option.some.inj hb).symm⟩
      · right
        rw [if_neg hjk] at hb
        exact ⟨fun h => hjk h.symm, hb⟩
    have hdata2 : (t.cylinders.headerActions.set k a.activate).map QAction.data
        = toggleableColumns m := by
      rw [← hdata]
      apply List.ext_getElem?
      intro j
      rw [List.getElem?_map, List.getElem?_map, List.getElem?_set]
      by_cases hjk : k = j
      · rw [if_pos hjk, if_pos hklt, ← hjk, hk, hact]
        rfl
      · rw [if_neg hjk]
    refine ⟨?_, ?_, ?_⟩
    · rw [hacts]; exact hdata2
    · intro b hb
      rw [hacts] at hb
      obtain ⟨j, hj⟩ := List.mem_iff_getElem?.mp hb
      rcases hget j b hj with ⟨_, rfl⟩ | ⟨_, hj2⟩
      · rw [hact]; exact hcheckable a hamem
      · exact hcheckable b (List.mem_iff_getElem?.mpr ⟨j, hj2⟩)
    · intro b hb hP
      rw [hacts] at hb
      obtain ⟨j, hj⟩ := List.mem_iff_getElem?.mp hb
      rw [hhid b.data]
      rcases hget j b hj with ⟨_, rfl⟩ | ⟨hjk, hj2⟩
      · simp
      · have hbmem : b ∈ t.cylinders.headerActions := List.mem_iff_getElem?.mpr ⟨j, hj2⟩
        have hne : b.data ≠ a.data := by
          intro heq
          have hnd := toggleableColumns_nodup m
          rw [← hdata] at hnd
          have hjlt : j < t.cylinders.headerActions.length := (List.getElem?_eq_some.mp hj2).1
          have e1 : (t.cylinders.headerActions.map QAction.data)[j]? = some b.data := by
            rw [List.getElem?_map, hj2]; rfl
          have e2 : (t.cylinders.headerActions.map QAction.data)[k]? = some b.data := by
            rw [List.getElem?_map, hk, heq]; rfl
          rcases Nat.lt_or_gt_of_ne hjk with hlt | hgt
          · exact List.nodup_iff_getElem?_ne_getElem?.mp hnd j k hlt
              (by rw [List.length_map]; exact hklt) (e1.trans e2.symm)
          · exact List.nodup_iff_getElem?_ne_getElem?.mp hnd k j hgt
              (by rw [List.length_map]; exact hjlt) (e2.trans e1.symm)
        rw [hadata, if_neg hne]
        refine hsync b hbmem ?_
        rcases hPQ b.data hP with hq | hq
        · exact hq
        · rw [hkth] at hq
          exact absurd (Option.some.inj hq).symm hne

/-- A call of `updateData` keeps the invariant for columns other than USE. -/
theorem tabInvariant_updateData {D W : Type} (env : Env D W) (P : Nat → Prop)
    (selection : List D) (currentDive : Option D) (currentDC : Int) (st : State D W)
    (hP : ¬ P env.cylindersModel.USE) (h : TabInvariant env.cylindersModel P st.tab) :
    TabInvariant env.cylindersModel P
      (updateData env selection currentDive currentDC st).tab := by
  obtain ⟨hdata, hcheckable, hsync⟩ := h
  have hacts : (updateData env selection currentDive currentDC st).tab.cylinders.headerActions
      = st.tab.cylinders.headerActions := by
    simp only [updateData, State.call, QTableView.showColumn, QTableView.hideColumn,
      QTableView.setColumnHidden]
    split <;> rfl
  have hhid : ∀ c, c ≠ env.cylindersModel.USE →
      (updateData env selection currentDive currentDC st).tab.cylinders.isColumnHidden c
        = st.tab.cylinders.isColumnHidden c := by
    intro c hc
    simp only [updateData, State.call, QTableView.showColumn, QTableView.hideColumn,
      QTableView.setColumnHidden, QTableView.isColumnHidden]
    split <;> simp [hc]
  refine ⟨by rw [hacts]; exact hdata, by rw [hacts]; exact hcheckable, ?_⟩
  intro a ha hPa
  rw [hacts] at ha
  have hne : a.data ≠ env.cylindersModel.USE := fun heq => hP (heq ▸ hPa)
  rw [hhid a.data hne]
  exact hsync a ha hPa

/-- A sequence of steps keeps the invariant for column `c`, where for `c = USE` the
invariant is tracked only while `useSettled` holds. -/
theorem tabInvariant_run {D W : Type} (env : Env D W) (c : Nat) (steps : List (Step D)) :
    ∀ (st : State D W) (b : Bool),
      TabInvariant env.cylindersModel
        (fun x => x = c ∧ (x = env.cylindersModel.USE → b = true)) st.tab →
      TabInvariant env.cylindersModel
        (fun x => x = c ∧
          (x = env.cylindersModel.USE → useSettled env.cylindersModel b steps = true))
        (run env st steps).tab := by
  induction steps with
  | nil => intro st b h; exact h
  | cons s steps ih =>
    intro st b h
    cases s with
    | trigger k =>
      refine ih { st with tab := st.tab.triggerHeaderAction k }
        (b || (toggleableColumns env.cylindersModel)[k]? == some env.cylindersModel.USE) ?_
      refine tabInvariant_trigger env.cylindersModel _ _ st.tab k ?_ h
      rintro x ⟨hxc, hx⟩
      by_cases hu : x = env.cylindersModel.USE
      · have hb := hx hu
        simp only [Bool.or_eq_true, beq_iff_eq] at hb
        rcases hb with hb | hb
        · exact Or.inl ⟨hxc, fun _ => hb⟩
        · exact Or.inr (by rw [hb, hu])
      · exact Or.inl ⟨hxc, fun h => absurd h hu⟩
    | updateData selection currentDive currentDC =>
      refine ih (updateData env selection currentDive currentDC st) false ?_
      refine tabInvariant_updateData env _ selection currentDive currentDC st ?_ ?_
      · rintro ⟨_, hx⟩
        exact absurd (hx rfl) (by decide)
      · refine tabInvariant_mono env.cylindersModel _ _ st.tab ?_ h
        rintro x ⟨hxc, hx⟩
        exact ⟨hxc, fun hu => absurd (hx hu) (by decide)⟩

/-- C10, as amended: in every state reached from construction (from widgets without
header actions) by column toggles and `updateData` calls, every toggleable column other
than USE has a header action, and the action is checked exactly when the column is
visible; the same holds for USE whenever no `updateData` call was made since construction
or since the last toggle of USE. -/
theorem header_actions_in_sync {D W : Type} (env : Env D W) (ui : TabDiveEquipment)
    (store : SettingsStore) (world : W) (steps : List (Step D)) (c : Nat)
    (hui : ui.cylinders.headerActions = [])
    (hc : c < env.cylindersModel.COLUMNS)
    (htog : ignoreHiddenFlag env.cylindersModel c = false)
    (hcase : c ≠ env.cylindersModel.USE ∨ useSettled env.cylindersModel true steps = true) :
    (∃ a ∈ (run env (constructed env ui store world) steps).tab.cylinders.headerActions,
      a.data = c) ∧
    HeaderInSync (run env (constructed env ui store world) steps).tab c := by
  have hinv := tabInvariant_run env c steps (constructed env ui store world) true
    (tabInvariant_construct env.cylindersModel _ ui store hui)
  obtain ⟨hdata, _, hsync⟩ := hinv
  constructor
  · have hmem : c ∈ (run env (constructed env ui store world) steps).tab.cylinders.headerActions.map
        QAction.data := by
      rw [hdata]
      exact (mem_toggleableColumns env.cylindersModel c).mpr ⟨hc, htog⟩
    obtain ⟨a, ha, hac⟩ := List.mem_map.mp hmem
    exact ⟨a, ha, hac⟩
  · intro a ha hac
    have hP : a.data = c ∧
        (a.data = env.cylindersModel.USE → useSettled env.cylindersModel true steps = true) := by
      refine ⟨hac, fun hu => ?_⟩
      rcases hcase with h | h
      · exact absurd (hac ▸ hu) h
      · exact h
    have := hsync a ha hP
    rw [hac] at this
    rw [this]
    cases (run env (constructed env ui store world) steps).tab.cylinders.isColumnHidden c <;>
      simp

/-- Witness for C10 as amended: the USE column after a refresh followed by a toggle of
USE (its action has index 9 in the header). -/
theorem header_actions_in_sync_witness :
    HeaderInSync
      (run (sampleEnv StandardButton.Yes)
        (constructed (sampleEnv StandardButton.Yes) freshUi emptyStore [1, 2, 3])
        [Step.updateData [7] (some 7) 0, Step.trigger 9]).tab 11 :=
  (header_actions_in_sync (sampleEnv StandardButton.Yes) freshUi emptyStore [1, 2, 3]
    [Step.updateData [7] (some 7) 0, Step.trigger 9] 11 rfl (by decide) (by decide)
    (Or.inr (by decide))).2

/-- C10 fails as stated: after construction with nothing stored and one `updateData`
call without a dive, the USE column, which is toggleable, is hidden while its header
action is still checked. -/
theorem header_actions_out_of_sync :
    sampleColumns.WellFormed ∧
    sampleColumns.USE < sampleColumns.COLUMNS ∧
    ignoreHiddenFlag sampleColumns sampleColumns.USE = false ∧
    ¬ HeaderInSync
      (run (sampleEnv StandardButton.Yes)
        (constructed (sampleEnv StandardButton.Yes) freshUi emptyStore [1, 2, 3])
        [Step.updateData [] none 0]).tab sampleColumns.USE := by
  refine ⟨by decide, by decide, by decide, ?_⟩
  decide

/-! ## The filter/sort proxy -/

/-- C8: for every trip-tree model and active filter, `filterAcceptsRow` on a trip-header
row is true if and only if `filterAcceptsRow` is true for at least one child dive row of
that trip. -/
theorem filterAcceptsRow_trip_header {D : Type} (model : List (TripTreeItem D))
    (filter : D → Bool) (trip : Nat) (htrip : isTripHeader model trip = true) :
    MultiFilterSortModel.filterAcceptsRow model filter trip none = true ↔
      ∃ r, r < rowCount model trip ∧
        MultiFilterSortModel.filterAcceptsRow model filter r (some trip) = true := by
  unfold isTripHeader at htrip
  cases hitem : model[trip]? with
  | none => simp [hitem] at htrip
  | some item =>
    cases item with
    | dive d => simp [hitem] at htrip
    | trip dives =>
      simp only [MultiFilterSortModel.filterAcceptsRow, rowCount, hitem, List.any_eq_true,
        List.mem_range]

/-- Witness for C8: a trip whose second dive passes the filter. -/
theorem filterAcceptsRow_trip_header_witness :
    MultiFilterSortModel.filterAcceptsRow sampleTree (fun d => d == 3) 1 none = true ↔
      ∃ r, r < rowCount sampleTree 1 ∧
        MultiFilterSortModel.filterAcceptsRow sampleTree (fun d => d == 3) r (some 1) = true :=
  filterAcceptsRow_trip_header sampleTree (fun d => d == 3) 1 (by decide)

/-- C9: `lessThan` is a strict weak ordering of the rows for the active sort key: no row
is less than itself, the relation is transitive, and so is incomparability. -/
theorem lessThan_strict_weak_order {R K : Type} [LinearOrder K] (sortKey : R → K) :
    (∀ a, MultiFilterSortModel.lessThan sortKey a a = false) ∧
    (∀ a b c, MultiFilterSortModel.lessThan sortKey a b = true →
      MultiFilterSortModel.lessThan sortKey b c = true →
      MultiFilterSortModel.lessThan sortKey a c = true) ∧
    (∀ a b c,
      MultiFilterSortModel.lessThan sortKey a b = false →
      MultiFilterSortModel.lessThan sortKey b a = false →
      MultiFilterSortModel.lessThan sortKey b c = false →
      MultiFilterSortModel.lessThan sortKey c b = false →
      MultiFilterSortModel.lessThan sortKey a c = false ∧
      MultiFilterSortModel.lessThan sortKey c a = false) := by
  simp only [MultiFilterSortModel.lessThan, decide_eq_true_eq, decide_eq_false_iff_not,
    not_lt]
  refine ⟨fun a => le_refl _, fun a b c hab hbc => lt_trans hab hbc, ?_⟩
  intro a b c h1 h2 h3 h4
  exact ⟨le_trans h3 h1, le_trans h2 h4⟩

/-- Witness for C9: rows ordered by an integer key. -/
theorem lessThan_strict_weak_order_witness :
    MultiFilterSortModel.lessThan (fun r : Nat => (r : Int)) 1 3 = true :=
  (lessThan_strict_weak_order (fun r : Nat => (r : Int))).2.1 1 2 3 (by decide) (by decide)

end Subsurface
